import Mathlib

/-!
Verification of the resume-builder service (src/main.py) against its
natural-language specification.  The Python source is shallowly embedded:
strings are `List Char`, the regex cleanup pipeline of
`generate_resume_text` is compiled to executable functions, the layout
formatter `create_pdf_resume` to a pure function emitting a list of
style-tagged blocks, and the two Flask endpoints to functions over an
optional parsed request body and an oracle for the single outbound
completion call.
-/

set_option maxRecDepth 4096

/-- ASCII whitespace recognized by Python `str.strip()` and the regex
class used with a backslash-s, namely space, tab, newline, carriage
return, vertical tab and form feed. -/
def isPySpace (c : Char) : Bool :=
  c == ' ' || c == '\t' || c == '\n' || c == '\r' || c == '\x0b' || c == '\x0c'

/-- `str.strip()` from the left. -/
def trimLeftC (l : List Char) : List Char := l.dropWhile isPySpace

/-- `str.strip()` from the right. -/
def trimRightC (l : List Char) : List Char := (l.reverse.dropWhile isPySpace).reverse

/-- Python `str.strip()`: remove leading and trailing whitespace. -/
def trim (l : List Char) : List Char := trimRightC (trimLeftC l)

/-- Case-insensitive literal match at the head of a string (the regexes of
`generate_resume_text` carry the IGNORECASE flag; the patterns are ASCII). -/
def startsWithCI : List Char → List Char → Bool
  | [], _ => true
  | _ :: _, [] => false
  | p :: ps, s :: ss => (Char.toLower s == Char.toLower p) && startsWithCI ps ss

/-- Index of the first case-insensitive occurrence of `pat` that begins
before the first newline of the scanned string.  A dot in the source
regexes does not match a newline, so a lazy dot-star walk stops there. -/
def findCIBeforeNL (pat : List Char) : List Char → Option Nat
  | [] => none
  | a :: rest =>
    if startsWithCI pat (a :: rest) then some 0
    else if a == '\n' then none
    else (findCIBeforeNL pat rest).map (· + 1)

/-- Index of the first occurrence of character `c` before the first
newline of the scanned string. -/
def findCharBeforeNL (c : Char) : List Char → Option Nat
  | [] => none
  | a :: rest =>
    if a == c then some 0
    else if a == '\n' then none
    else (findCharBeforeNL c rest).map (· + 1)

/-- All start indices, in increasing order, of case-insensitive
occurrences of `pat` that begin before the first newline. -/
def occsCIBeforeNL (pat : List Char) : List Char → List Nat
  | [] => []
  | a :: rest =>
    if a == '\n' then []
    else
      let tl := (occsCIBeforeNL pat rest).map (· + 1)
      if startsWithCI pat (a :: rest) then 0 :: tl else tl

/-- The literal pattern fragment with an apostrophe, built without an
apostrophe inside a string literal. -/
def hereSPat : List Char := ("here".data) ++ [Char.ofNat 39, 's']

/-- First cleanup substitution of `generate_resume_text`
(src/main.py line 88): strip a leading preamble that starts with the
words here-is (or the apostrophe form), runs lazily to the first
occurrence of the word resume on the same line, an optional colon, and
any following whitespace.  Anchored at the start, so at most one match. -/
def subHereIs (s : List Char) : List Char :=
  let core : Nat → List Char :=
    fun n =>
      match findCIBeforeNL ("resume".data) (s.drop n) with
      | none => s
      | some k =>
        let rest := (s.drop n).drop (k + 6)
        let rest2 := match rest with
          | ':' :: t => t
          | _ => rest
        rest2.dropWhile isPySpace
  if startsWithCI ("here is".data) s then core 7
  else if startsWithCI hereSPat s then core 6
  else s

/-- Second cleanup substitution (line 89): a greedy dot-star, the words
formatted resume, a lazy walk to the next colon on the same line, and
trailing whitespace — all anchored at the start.  Greediness selects the
last occurrence on the first line that still has a colon after it. -/
def subFormattedResume (s : List Char) : List Char :=
  let ks := (occsCIBeforeNL ("formatted resume".data) s).filter
      (fun k => (findCharBeforeNL ':' (s.drop (k + 16))).isSome)
  match ks.getLast? with
  | none => s
  | some k =>
    match findCharBeforeNL ':' (s.drop (k + 16)) with
    | none => s
    | some j => ((s.drop (k + 16)).drop (j + 1)).dropWhile isPySpace

/-- Membership test for a newline in the remainder of a line. -/
def noNL (l : List Char) : Bool := !(l.contains '\n')

/-- First index at which the hope-postamble pattern matches: the pattern
occurs case-insensitively there and the rest of the scanned string
contains no newline (the dollar anchor without MULTILINE only matches at
the end of the string or just before a terminal newline). -/
def findHopeIdx (pat : List Char) : List Char → Option Nat
  | [] => none
  | a :: rest =>
    if startsWithCI pat (a :: rest) && noNL ((a :: rest).drop pat.length) then some 0
    else (findHopeIdx pat rest).map (· + 1)

/-- Third cleanup substitution (line 90): delete from the first
occurrence of the phrase on the final line to the end of that line,
keeping a terminal newline if present. -/
def subIHope (s : List Char) : List Char :=
  let bodyTail : List Char × List Char :=
    match s.reverse with
    | '\n' :: t => (t.reverse, ['\n'])
    | _ => (s, [])
  match findHopeIdx ("I hope this helps".data) bodyTail.1 with
  | none => s
  | some k => bodyTail.1.take k ++ bodyTail.2

/-- Fourth cleanup substitution (line 91): a lazy dot-star from the
start, the words based on, a lazy walk to the next colon on the same
line, and trailing whitespace.  Laziness selects the first occurrence;
if no colon follows it on the first line, no later occurrence can have
one either, so the whole pattern fails. -/
def subBasedOn (s : List Char) : List Char :=
  match findCIBeforeNL ("based on".data) s with
  | none => s
  | some k =>
    match findCharBeforeNL ':' (s.drop (k + 8)) with
    | none => s
    | some j => ((s.drop (k + 8)).drop (j + 1)).dropWhile isPySpace

/-- The full cleanup of `generate_resume_text` (lines 85-93): an initial
strip, the four ordered substitutions, and a final strip. -/
def cleanup (s : List Char) : List Char :=
  trim (subBasedOn (subIHope (subFormattedResume (subHereIs (trim s)))))

theorem dropWhile_dropWhile (p : Char → Bool) (l : List Char) :
    List.dropWhile p (List.dropWhile p l) = List.dropWhile p l := by
  induction l with
  | nil => rfl
  | cons a t ih =>
    cases hp : p a with
    | true => simp [List.dropWhile_cons, hp, ih]
    | false => simp [List.dropWhile_cons, hp]

theorem dropWhile_head_false (p : Char → Bool) (l : List Char) (a : Char) (t : List Char)
    (h : List.dropWhile p l = a :: t) : p a = false := by
  induction l with
  | nil => simp [List.dropWhile] at h
  | cons b u ih =>
    cases hp : p b with
    | true => rw [List.dropWhile_cons, if_pos hp] at h; exact ih h
    | false =>
      rw [List.dropWhile_cons, if_neg (by simp [hp])] at h
      cases h; exact hp

theorem trimRightC_isPre (l : List Char) : ∃ s, trimRightC l ++ s = l := by
  obtain ⟨s, hs⟩ := List.dropWhile_suffix (l := l.reverse) isPySpace
  refine ⟨s.reverse, ?_⟩
  have := congrArg List.reverse hs
  simpa [trimRightC] using this

theorem trimRightC_trimRightC (l : List Char) : trimRightC (trimRightC l) = trimRightC l := by
  simp [trimRightC, dropWhile_dropWhile]

theorem trimLeftC_trimRightC_trimLeftC (l : List Char) :
    trimLeftC (trimRightC (trimLeftC l)) = trimRightC (trimLeftC l) := by
  cases h : trimRightC (trimLeftC l) with
  | nil => rfl
  | cons a t =>
    obtain ⟨s, hs⟩ := trimRightC_isPre (trimLeftC l)
    rw [h] at hs
    have ha : isPySpace a = false := by
      refine dropWhile_head_false isPySpace l a (t ++ s) ?_
      have : trimLeftC l = a :: (t ++ s) := by simpa using hs.symm
      simpa [trimLeftC] using this
    simp [trimLeftC, List.dropWhile_cons, ha]

theorem trim_trim (l : List Char) : trim (trim l) = trim l := by
  unfold trim
  rw [trimLeftC_trimRightC_trimLeftC, trimRightC_trimRightC]

theorem trim_cleanup (s : List Char) : trim (cleanup s) = cleanup s := trim_trim _

/-! ## Completion client (src/main.py lines 63-96)

`generate_resume_text` performs one outbound POST.  The transport outcome
is modelled explicitly: either the HTTP library raised, or a response
arrived carrying a status code and a body that is malformed JSON or a
parsed object with an optional choices array, each choice carrying an
optional message content.  Every exception path of the Python function is
caught by its own try/except and turns into the Python return value
`None`, modelled as `Option.none`; the function never raises. -/

structure Choice where
  content : Option (List Char)
  deriving DecidableEq

structure GroqJson where
  choices : Option (List Choice)
  deriving DecidableEq

inductive HttpResult where
  | transportError
  | ok (status : Nat) (body : Option GroqJson)
  deriving DecidableEq

/-- Embedding of `generate_resume_text`.  The status code of the response
is never examined by the source: only the presence of a non-empty
choices array and of the message content decide the outcome. -/
def generate_resume_text : HttpResult → Option (List Char)
  | .transportError => none
  | .ok _ none => none
  | .ok _ (some j) =>
    match j.choices with
    | some (c :: _) =>
      match c.content with
      | some content => some (cleanup content)
      | none => none
    | _ => none

/-! ## Layout formatter (src/main.py lines 98-171) -/

/-- A layout block as appended to `story`, tagged by the style the
source attaches: the three header paragraphs, the shaded section-title
paragraph, the two-column record table (body/date styles, widths
300/180), the bullet paragraph, the two-column skills table (widths
150/330), and the plain body paragraph. -/
inductive Block where
  | name (text : List Char)
  | title (text : List Char)
  | contact (text : List Char)
  | sectionHeader (text : List Char)
  | record (left right : List Char)
  | bullet (text : List Char)
  | skill (left right : List Char)
  | para (text : List Char)
  deriving DecidableEq

def Block.isSectionHeader : Block → Bool
  | .sectionHeader _ => true
  | _ => false

/-- Python `line.upper()` (the lines handled here are ASCII). -/
def upperL (l : List Char) : List Char := l.map Char.toUpper

/-- The fixed section vocabulary of line 141. -/
def vocab : List (List Char) :=
  [("PROFILE".data), ("EMPLOYMENT HISTORY".data), ("EDUCATION".data),
   ("SKILLS".data), ("INTERNSHIPS".data), ("REFERENCES".data)]

/-- The sections whose pipe lines become record rows (line 147). -/
def recordSections : List (List Char) :=
  [("EMPLOYMENT HISTORY".data), ("EDUCATION".data), ("INTERNSHIPS".data)]

/-- Python `line.split(c)`: split at every occurrence, keeping empty
parts, always returning at least one part. -/
def splitChar (c : Char) : List Char → List (List Char)
  | [] => [[]]
  | a :: rest =>
    match splitChar c rest with
    | [] => [[]]
    | g :: gs => if a == c then [] :: g :: gs else (a :: g) :: gs

/-- `line.startswith` over the two bullet markers (line 155). -/
def isBulletLine (l : List Char) : Bool :=
  match l with
  | [] => false
  | c :: _ => c == '•' || c == '-'

/-- `line.lstrip` over the bullet-marker-and-space set followed by
`strip()` (line 156). -/
def stripBulletMarks (l : List Char) : List Char :=
  trim (l.dropWhile (fun c => c == '•' || c == '-' || c == ' '))

/-- The part of the line before its first occurrence of `c`. -/
def takeUntilChar (c : Char) (l : List Char) : List Char :=
  l.takeWhile (fun a => !(a == c))

/-- The part of the line after its first occurrence of `c`; together with
`takeUntilChar` this is Python `split(c, 1)` when `c` occurs. -/
def dropPastChar (c : Char) (l : List Char) : List Char :=
  l.drop ((takeUntilChar c l).length + 1)

/-- One iteration of the while loop of lines 138-167: the block emitted
for `line` when the scan state is `sect`, with the branches in source
order (section header, record row, bullet, skills key/value, plain). -/
def classifyLine (sect line : List Char) : Block :=
  if upperL line ∈ vocab then
    Block.sectionHeader (upperL line)
  else if sect ∈ recordSections ∧ '|' ∈ line then
    let parts := (splitChar '|' line).map trim
    Block.record parts.headI (List.intercalate (" | ".data) parts.tail)
  else if isBulletLine line then
    Block.bullet (stripBulletMarks line)
  else if sect = ("SKILLS".data) ∧ ':' ∈ line then
    Block.skill (trim (takeUntilChar ':' line) ++ [':']) (trim (dropPastChar ':' line))
  else
    Block.para line

/-- The state update of the same iteration: only a section-header line
changes `current_section` (line 142). -/
def nextSection (sect line : List Char) : List Char :=
  if upperL line ∈ vocab then upperL line else sect

/-- The whole while loop threaded over the remaining lines. -/
def scanLines (sect : List Char) : List (List Char) → List Block
  | [] => []
  | l :: ls => classifyLine sect l :: scanLines (nextSection sect l) ls

/-- Line 122: split on newlines, strip each line, keep non-empty ones. -/
def splitLines (text : List Char) : List (List Char) :=
  ((splitChar '\n' text).map trim).filter (fun l => l ≠ [])

/-- Lines 126-134: the first up to three surviving lines become the
name, title and contact header paragraphs. -/
def headerBlocks : List (List Char) → List Block
  | [] => []
  | [a] => [.name a]
  | [a, b] => [.name a, .title b]
  | a :: b :: c :: _ => [.name a, .title b, .contact c]

/-- Embedding of `create_pdf_resume` as the ordered block sequence the
source appends to `story` before handing it to the rendering backend. -/
def create_pdf_resume (text : List Char) : List Block :=
  headerBlocks (splitLines text) ++ scanLines [] ((splitLines text).drop 3)

/-! ## HTTP endpoints (src/main.py lines 173-216)

The Flask request parsing is an external collaborator; the model starts
at the value of `request.get_json()`: `none` stands for a missing or
null body, otherwise the parsed field mapping.  The single outbound
completion call is represented by an `HttpResult` oracle, and the first
component of the result records whether `generate_resume_text` (the
outbound POST) was invoked at all. -/

structure ReqBody where
  name : Option (List Char)
  phone : Option (List Char)
  email : Option (List Char)
  summary : Option (List Char)
  experience : Option (List Char)
  education : Option (List Char)
  skills : Option (List Char)
  deriving DecidableEq

/-- Python truthiness of `data.get(field)`: missing or empty. -/
def falsyOpt : Option (List Char) → Bool
  | none => true
  | some l => l.isEmpty

inductive EpResponse where
  | badRequest
  | serverError
  | okJson (resume : List Char)
  | okPdf (blocks : List Block) (filename : List Char)
  deriving DecidableEq

/-- The HTTP status attached to each modelled response. -/
def statusOf : EpResponse → Nat
  | .badRequest => 400
  | .serverError => 500
  | .okJson _ => 200
  | .okPdf _ _ => 200

/-- The guard of lines 179 and 198. -/
def invalidBody : Option ReqBody → Bool
  | none => true
  | some d => falsyOpt d.name || falsyOpt d.email

/-- Embedding of the `/generate` endpoint (lines 173-190). -/
def generate_resume_ep (body : Option ReqBody) (api : HttpResult) : Bool × EpResponse :=
  match body with
  | none => (false, .badRequest)
  | some d =>
    if falsyOpt d.name || falsyOpt d.email then (false, .badRequest)
    else
      match generate_resume_text api with
      | none => (true, .serverError)
      | some t => if t.isEmpty then (true, .serverError) else (true, .okJson t)

/-- Line 206: `data.get` with the default, spaces replaced. -/
def pdfFilename (d : ReqBody) : List Char :=
  ((match d.name with
    | some n => n
    | none => ("resume".data)).map (fun c => if c == ' ' then '_' else c))
    ++ ("_resume.pdf".data)

/-- Embedding of the `/generate-pdf` endpoint (lines 192-216). -/
def generate_pdf_ep (body : Option ReqBody) (api : HttpResult) : Bool × EpResponse :=
  match body with
  | none => (false, .badRequest)
  | some d =>
    if falsyOpt d.name || falsyOpt d.email then (false, .badRequest)
    else
      match generate_resume_text api with
      | none => (true, .serverError)
      | some t =>
        if t.isEmpty then (true, .serverError)
        else (true, .okPdf (create_pdf_resume t) (pdfFilename d))

/-! ## Shared helper lemmas -/

/-- A line containing a pipe can never pass the section-header test: the
vocabulary words contain no pipe and upcasing preserves it. -/
theorem pipe_notin_vocab (l : List Char) (h : '|' ∈ l) : upperL l ∉ vocab := by
  intro hv
  have hp : '|' ∈ upperL l := by
    have h2 := List.mem_map_of_mem Char.toUpper h
    have he : Char.toUpper '|' = '|' := rfl
    rw [he] at h2
    exact h2
  simp only [vocab, List.mem_cons, List.not_mem_nil, or_false] at hv
  rcases hv with h1 | h1 | h1 | h1 | h1 | h1 <;> rw [h1] at hp <;> exact absurd hp (by decide)

/-- The scan emits exactly one block per line. -/
theorem scanLines_length (sect : List Char) (ls : List (List Char)) :
    (scanLines sect ls).length = ls.length := by
  induction ls generalizing sect with
  | nil => rfl
  | cons a t ih => simp [scanLines, ih]

/-- Python split never returns an empty list of parts. -/
theorem splitChar_ne_nil (c : Char) (l : List Char) : splitChar c l ≠ [] := by
  cases l with
  | nil => simp [splitChar]
  | cons a rest =>
    rw [splitChar]
    cases h : splitChar c rest with
    | nil => simp
    | cons g gs =>
      cases hac : a == c <;> simp [hac]

/-! ## Claims -/

/-- Claim C1: on the cleaned example text, the formatter emits exactly
the three header blocks, the PROFILE header, a plain paragraph, the
EMPLOYMENT HISTORY header, a record row with left cell Engineer and
right cell Acme Corp pipe date range, a bullet block, the SKILLS header,
and a key/value row with left cell Languages-colon and right cell the
skill list — in this order and nothing else. -/
theorem c1_example_layout :
    create_pdf_resume (("Jane Doe\nSoftware Engineer\n555-1234 | jane@x.com\nPROFILE\nExperienced engineer.\nEMPLOYMENT HISTORY\nEngineer | Acme Corp | 2020-2023\n• Built things\nSKILLS\nLanguages: Python, Go").data) =
      [Block.name ("Jane Doe".data),
       Block.title ("Software Engineer".data),
       Block.contact ("555-1234 | jane@x.com".data),
       Block.sectionHeader ("PROFILE".data),
       Block.para ("Experienced engineer.".data),
       Block.sectionHeader ("EMPLOYMENT HISTORY".data),
       Block.record ("Engineer".data) ("Acme Corp | 2020-2023".data),
       Block.bullet ("Built things".data),
       Block.sectionHeader ("SKILLS".data),
       Block.skill ("Languages:".data) ("Python, Go".data)] := by decide

/-- Claim C4: a scanned line is recognized as a SectionHeader exactly
when its upcasing equals one of the six vocabulary words — the match is
case-insensitive and exact, never a substring test — and in particular
the line Profile Summary is emitted as a plain paragraph block under
every scan state. -/
theorem c4_section_header_exact :
    (∀ sect line, (classifyLine sect line).isSectionHeader = decide (upperL line ∈ vocab))
    ∧ (∀ sect, classifyLine sect ("Profile Summary".data) = Block.para ("Profile Summary".data)) := by
  constructor
  · intro sect line
    by_cases h : upperL line ∈ vocab
    · simp [classifyLine, h, Block.isSectionHeader]
    · simp only [classifyLine, if_neg h]
      split_ifs <;> simp [Block.isSectionHeader, h]
  · intro sect
    have h1 : ¬ (upperL ("Profile Summary".data) ∈ vocab) := by decide
    have h2 : ¬ ('|' ∈ ("Profile Summary".data)) := by decide
    have h3 : isBulletLine ("Profile Summary".data) = false := by decide
    have h4 : ¬ (':' ∈ ("Profile Summary".data)) := by decide
    simp [classifyLine, h1, h2, h3, h4]

/-- Claim C6: inside EMPLOYMENT HISTORY, EDUCATION or INTERNSHIPS, a
line containing a pipe is split on every pipe, each part is trimmed, the
first part becomes the left cell, and all remaining parts rejoined with
a space-padded pipe become the right cell; concretely a three-pipe line
keeps its extra pipes in the right cell. -/
theorem c6_record_split :
    (∀ sect line, sect ∈ recordSections → '|' ∈ line →
      classifyLine sect line =
        Block.record (((splitChar '|' line).map trim).headI)
          (List.intercalate (" | ".data) (((splitChar '|' line).map trim).tail)))
    ∧ classifyLine ("EDUCATION".data) ("A | B | C | D".data)
        = Block.record ("A".data) ("B | C | D".data) := by
  constructor
  · intro sect line hs hp
    have hv := pipe_notin_vocab line hp
    simp [classifyLine, hv, hs, hp]
  · decide

theorem c6_witness :
    classifyLine ("EMPLOYMENT HISTORY".data) ("Dev | Acme | 2020".data)
      = Block.record ("Dev".data) ("Acme | 2020".data) := by
  have h := c6_record_split.1 ("EMPLOYMENT HISTORY".data) ("Dev | Acme | 2020".data)
    (by decide) (by decide)
  exact h.trans (by decide)

/-- Claim C7: after splitting, dropping blank lines and trimming, the
first up to three surviving lines are consumed positionally and
unconditionally as the Name, Title and Contact header blocks — whatever
their content — and when fewer than three lines exist only those are
emitted, with no padding blocks. -/
theorem c7_header_positional (text : List Char) :
    create_pdf_resume text =
      (List.zipWith (fun f l => f l) [Block.name, Block.title, Block.contact]
        ((splitLines text).take 3))
      ++ scanLines [] ((splitLines text).drop 3) := by
  unfold create_pdf_resume
  cases h : splitLines text with
  | nil => rfl
  | cons a t =>
    cases t with
    | nil => rfl
    | cons b u =>
      cases u with
      | nil => rfl
      | cons c v => rfl

/-- Claim C9: the scan is a one-variable state machine: scanning a
concatenation threads the folded section state through, and over any
stretch of lines none of which is a section header the state is
unchanged and every line is classified under the same section. -/
theorem c9_section_state :
    ∀ (sect : List Char) (ls₁ ls₂ : List (List Char)),
      scanLines sect (ls₁ ++ ls₂) =
        scanLines sect ls₁ ++ scanLines (ls₁.foldl nextSection sect) ls₂
      ∧ ((∀ l ∈ ls₁, upperL l ∉ vocab) →
          ls₁.foldl nextSection sect = sect ∧
          scanLines sect ls₁ = ls₁.map (classifyLine sect)) := by
  intro sect ls₁
  induction ls₁ generalizing sect with
  | nil =>
    intro ls₂
    exact ⟨rfl, fun _ => ⟨rfl, rfl⟩⟩
  | cons a t ih =>
    intro ls₂
    constructor
    · simp only [List.cons_append, scanLines, List.foldl_cons]
      exact congrArg (classifyLine sect a :: ·) (ih (nextSection sect a) ls₂).1
    · intro h
      have ha : upperL a ∉ vocab := h a (List.mem_cons_self a t)
      have hn : nextSection sect a = sect := by simp [nextSection, ha]
      have ht := (ih sect ls₂).2 (fun l hl => h l (List.mem_cons_of_mem a hl))
      refine ⟨?_, ?_⟩
      · simp [List.foldl_cons, hn, ht.1]
      · simp [scanLines, hn, ht.2]

theorem c9_witness :
    scanLines ("PROFILE".data) ([("a b".data)] ++ [("EDUCATION".data)]) =
      scanLines ("PROFILE".data) [("a b".data)] ++
        scanLines ([("a b".data)].foldl nextSection ("PROFILE".data)) [("EDUCATION".data)]
    ∧ ([("a b".data)].foldl nextSection ("PROFILE".data) = ("PROFILE".data)
       ∧ scanLines ("PROFILE".data) [("a b".data)]
          = [("a b".data)].map (classifyLine ("PROFILE".data))) :=
  ⟨(c9_section_state ("PROFILE".data) [("a b".data)] [("EDUCATION".data)]).1,
   (c9_section_state ("PROFILE".data) [("a b".data)] [("EDUCATION".data)]).2 (by decide)⟩

theorem splitChar_len2 (c : Char) (l : List Char) (h : c ∈ l) :
    2 ≤ (splitChar c l).length := by
  induction l with
  | nil => simp at h
  | cons a t ih =>
    rw [splitChar]
    cases ht : splitChar c t with
    | nil => exact absurd ht (splitChar_ne_nil c t)
    | cons g gs =>
      by_cases hac : a = c
      · simp [hac]
      · have hct : c ∈ t := by
          rcases List.mem_cons.mp h with h1 | h1
          · exact absurd h1.symm hac
          · exact h1
        have h2 := ih hct
        rw [ht] at h2
        have hbeq : (a == c) = false := by simp [hac]
        simp only [hbeq, Bool.false_eq_true, if_false, List.length_cons] at h2 ⊢
        simpa using h2

theorem colon_split (l : List Char) (h : ':' ∈ l) :
    l = takeUntilChar ':' l ++ ':' :: dropPastChar ':' l := by
  induction l with
  | nil => simp at h
  | cons a t ih =>
    by_cases ha : a = ':'
    · subst ha
      simp [takeUntilChar, dropPastChar, List.takeWhile_cons]
    · have h' : ':' ∈ t := by
        rcases List.mem_cons.mp h with h1 | h1
        · exact absurd h1.symm ha
        · exact h1
      have hpred : (!(a == ':')) = true := by simp [ha]
      have htake : takeUntilChar ':' (a :: t) = a :: takeUntilChar ':' t := by
        simp [takeUntilChar, List.takeWhile_cons, hpred]
      have hdrop : dropPastChar ':' (a :: t) = dropPastChar ':' t := by
        simp [dropPastChar, takeUntilChar, List.takeWhile_cons, hpred]
      rw [htake, hdrop, List.cons_append]
      exact congrArg (a :: ·) (ih h')

/-- Claim C10: the branch guards make the partial operations total: a
line containing a pipe splits into at least two parts, so the first part
and the rejoined remainder exist; a line containing a colon splits into
exactly the part before the first colon and the part after it, which
reassemble to the whole line; and the formatter always produces exactly
one block per surviving line, so it is total on every input text. -/
theorem c10_guards_total :
    (∀ line : List Char, '|' ∈ line → 2 ≤ (splitChar '|' line).length)
    ∧ (∀ line : List Char, ':' ∈ line →
        line = takeUntilChar ':' line ++ ':' :: dropPastChar ':' line)
    ∧ (∀ text : List Char, (create_pdf_resume text).length = (splitLines text).length) := by
  refine ⟨fun line h => splitChar_len2 '|' line h, fun line h => colon_split line h, ?_⟩
  intro text
  unfold create_pdf_resume
  cases h : splitLines text with
  | nil => rfl
  | cons a t =>
    cases t with
    | nil => rfl
    | cons b u =>
      cases u with
      | nil => rfl
      | cons c v =>
        simp [headerBlocks, scanLines_length]

theorem c10_witness :
    (2 ≤ (splitChar '|' ("a|b".data)).length)
    ∧ (("x:y".data) = takeUntilChar ':' ("x:y".data)
        ++ ':' :: dropPastChar ':' ("x:y".data)) :=
  ⟨c10_guards_total.1 ("a|b".data) (by decide),
   c10_guards_total.2.1 ("x:y".data) (by decide)⟩

theorem fallthrough_not_record (sect : List Char)
    (h : sect ∈ [("SKILLS".data), ("PROFILE".data), ("REFERENCES".data), ([] : List Char)]) :
    sect ∉ recordSections := by
  simp only [List.mem_cons, List.not_mem_nil, or_false] at h
  rcases h with h | h | h | h <;> subst h <;> decide

/-- Claim C5 fails on the code: while the section is SKILLS, a line
containing a pipe that also contains a colon is emitted as a two-column
key/value row, not as the plain paragraph the claim demands. -/
theorem c5_counterexample :
    classifyLine ("SKILLS".data) ("Tools: X | Y".data)
        = Block.skill ("Tools:".data) ("X | Y".data)
    ∧ classifyLine ("SKILLS".data) ("Tools: X | Y".data)
        ≠ Block.para ("Tools: X | Y".data) := by decide

/-- Claim C5 as amended: a pipe line scanned under SKILLS, PROFILE,
REFERENCES or the initial empty state falls through to a plain
paragraph provided it is not a bullet line and, in SKILLS, does not also
contain a colon (then it becomes a key/value row); a colon line scanned
outside SKILLS falls through to a plain paragraph provided it is not a
section header, not a bullet line, and not a pipe line inside a
record-eligible section (then it becomes a record row). -/
theorem c5_fallthrough_amended :
    ∀ sect line : List Char,
      (sect ∈ [("SKILLS".data), ("PROFILE".data), ("REFERENCES".data), ([] : List Char)] →
        '|' ∈ line → isBulletLine line = false →
        ¬(sect = ("SKILLS".data) ∧ ':' ∈ line) →
        classifyLine sect line = Block.para line)
      ∧ (sect ≠ ("SKILLS".data) → ':' ∈ line →
        upperL line ∉ vocab → isBulletLine line = false →
        ¬(sect ∈ recordSections ∧ '|' ∈ line) →
        classifyLine sect line = Block.para line) := by
  intro sect line
  constructor
  · intro hs hp hb hsk
    have hv := pipe_notin_vocab line hp
    have hrec : ¬(sect ∈ recordSections ∧ '|' ∈ line) :=
      fun hc => fallthrough_not_record sect hs hc.1
    simp [classifyLine, hv, hrec, hb, hsk]
  · intro hs hc hv hb hrec
    have hsk : ¬(sect = ("SKILLS".data) ∧ ':' ∈ line) := fun hh => hs hh.1
    simp [classifyLine, hv, hrec, hb, hsk]

theorem c5_witness :
    classifyLine ("PROFILE".data) ("a | b".data) = Block.para ("a | b".data)
    ∧ classifyLine ("EDUCATION".data) ("Degree: BSc".data)
        = Block.para ("Degree: BSc".data) :=
  ⟨(c5_fallthrough_amended ("PROFILE".data) ("a | b".data)).1
      (by decide) (by decide) (by decide) (by decide),
   (c5_fallthrough_amended ("EDUCATION".data) ("Degree: BSc".data)).2
      (by decide) (by decide) (by decide) (by decide) (by decide)⟩

/-- Claim C2 fails on the code: the response status is never inspected,
so a non-2xx response whose body still parses and carries a non-empty
choices array is returned as a success, not as a GenerationFailure. -/
theorem c2_counterexample :
    generate_resume_text (HttpResult.ok 500 (some ⟨some [⟨some ("hi".data)⟩]⟩))
      = some ("hi".data) := by decide

/-- Claim C2 as amended: the call yields the failure value exactly on a
transport error, a malformed body, a missing or empty choices array, or
a first choice with no message content; in every other case — the status
code never being inspected — it returns the cleaned string.  The
function is total: every failure path is a caught exception returning
the failure value, never a raise to the caller. -/
theorem c2_failure_characterization :
    (generate_resume_text HttpResult.transportError = none)
    ∧ (∀ st, generate_resume_text (HttpResult.ok st none) = none)
    ∧ (∀ st j, j.choices = none → generate_resume_text (HttpResult.ok st (some j)) = none)
    ∧ (∀ st j, j.choices = some [] → generate_resume_text (HttpResult.ok st (some j)) = none)
    ∧ (∀ st j c rest, j.choices = some (c :: rest) → c.content = none →
        generate_resume_text (HttpResult.ok st (some j)) = none)
    ∧ (∀ st j c rest content, j.choices = some (c :: rest) → c.content = some content →
        generate_resume_text (HttpResult.ok st (some j)) = some (cleanup content)) := by
  refine ⟨rfl, fun st => rfl, ?_, ?_, ?_, ?_⟩
  · intro st j h
    simp [generate_resume_text, h]
  · intro st j h
    simp [generate_resume_text, h]
  · intro st j c rest h hc
    simp [generate_resume_text, h, hc]
  · intro st j c rest content h hc
    simp [generate_resume_text, h, hc]

theorem c2_witness :
    generate_resume_text (HttpResult.ok 200 (some ⟨none⟩)) = none
    ∧ generate_resume_text (HttpResult.ok 200 (some ⟨some [⟨some ("ok".data)⟩]⟩))
        = some (cleanup ("ok".data)) :=
  ⟨c2_failure_characterization.2.2.1 200 ⟨none⟩ rfl,
   c2_failure_characterization.2.2.2.2.2 200 ⟨some [⟨some ("ok".data)⟩]⟩
     ⟨some ("ok".data)⟩ [] ("ok".data) rfl rfl⟩

/-- Claim C3 fails on the code: the cleanup pipeline is not idempotent
on every string — stripping one leading preamble can expose a second
one, so a second application strips again. -/
theorem c3_counterexample :
    cleanup (cleanup ("Here is resume: Here is resume: X".data))
      ≠ cleanup ("Here is resume: Here is resume: X".data) := by decide

/-- Claim C3 as amended: the pipeline is idempotent on already-clean
text: whenever none of the four substitutions fires on the output of one
application, a second application returns that output unchanged (the
surrounding trims are idempotent unconditionally). -/
theorem c3_idempotent_on_clean :
    ∀ s : List Char,
      subHereIs (cleanup s) = cleanup s →
      subFormattedResume (cleanup s) = cleanup s →
      subIHope (cleanup s) = cleanup s →
      subBasedOn (cleanup s) = cleanup s →
      cleanup (cleanup s) = cleanup s := by
  intro s h1 h2 h3 h4
  have ht : trim (cleanup s) = cleanup s := trim_cleanup s
  show trim (subBasedOn (subIHope (subFormattedResume (subHereIs (trim (cleanup s)))))) = cleanup s
  rw [ht, h1, h2, h3, h4, ht]

theorem c3_witness :
    cleanup (cleanup ("John Doe\nEngineer".data)) = cleanup ("John Doe\nEngineer".data) :=
  c3_idempotent_on_clean ("John Doe\nEngineer".data)
    (by decide) (by decide) (by decide) (by decide)

/-- Claim C8: an absent body or a missing or empty name or email field
makes both endpoints answer the fixed validation error with status 400
without the outbound completion call ever being attempted; when the
check passes, both endpoints do attempt the outbound call. -/
theorem c8_validation_before_call :
    ∀ (body : Option ReqBody) (api : HttpResult),
      (invalidBody body = true →
        generate_resume_ep body api = (false, EpResponse.badRequest)
        ∧ generate_pdf_ep body api = (false, EpResponse.badRequest)
        ∧ statusOf (generate_resume_ep body api).2 = 400
        ∧ statusOf (generate_pdf_ep body api).2 = 400)
      ∧ (invalidBody body = false →
        (generate_resume_ep body api).1 = true ∧ (generate_pdf_ep body api).1 = true) := by
  intro body api
  cases body with
  | none =>
    refine ⟨fun _ => ⟨rfl, rfl, rfl, rfl⟩, fun h => ?_⟩
    simp [invalidBody] at h
  | some d =>
    constructor
    · intro h
      simp only [invalidBody] at h
      simp [generate_resume_ep, generate_pdf_ep, h, statusOf]
    · intro h
      simp only [invalidBody] at h
      simp only [generate_resume_ep, generate_pdf_ep, h, Bool.false_eq_true, if_false]
      cases hg : generate_resume_text api with
      | none => simp
      | some t =>
        cases ht : t.isEmpty <;> simp [ht]

theorem c8_witness :
    generate_resume_ep none HttpResult.transportError = (false, EpResponse.badRequest)
    ∧ (generate_resume_ep
        (some ⟨some ("Jane".data), none, some ("j@x.com".data), none, none, none, none⟩)
        HttpResult.transportError).1 = true :=
  ⟨((c8_validation_before_call none HttpResult.transportError).1 (by decide)).1,
   ((c8_validation_before_call
      (some ⟨some ("Jane".data), none, some ("j@x.com".data), none, none, none, none⟩)
      HttpResult.transportError).2 (by decide)).1⟩
